import Mathlib

/-!
Verification development for Celox.js, a one-time-read encrypted message
service.  The embedding below follows the TypeScript sources:

* `src/lib/crypto.ts` — the envelope codec (`arrayBufferToBase64` /
  `base64ToArrayBuffer`, i.e. `btoa` / `atob` over byte sequences), and the
  `encrypt` / `decrypt` protocol around the platform AES-GCM and PBKDF2
  primitives (modelled as abstract parameters, since they are platform
  primitives, with the standard correctness facts as explicit hypotheses).
* `src/models/message.ts` — stub allocation, validation, creation, and the
  `markMessageAsRead` consume transition over the record store (the Prisma
  store is modelled as a list of records; each Prisma call is one atomic
  store operation).
* `src/app/api/message/route.ts` and `src/app/api/message/[stub]/route.ts`
  — the POST creation handler and the GET fetch/consume handler.

Bytes are `Nat` values (< 256 where it matters); strings are Lean `String`s;
timestamps are `Nat`.
-/

namespace Celox

/-! ## Base64 codec (`arrayBufferToBase64` / `base64ToArrayBuffer`)

`arrayBufferToBase64` turns a byte sequence into a binary string and calls
`btoa`; `base64ToArrayBuffer` calls `atob` and reads the code points back.
Since `String.fromCharCode` / `charCodeAt` are mutually inverse on byte
values, the composites are exactly base64 encoding and (forgiving) base64
decoding of byte sequences, which we implement directly.  `atob`'s failure
(`InvalidCharacterError`) is modelled by `Option.none`. -/

/-- The base64 alphabet used by `btoa` / `atob`. -/
def b64chars : List Char :=
  "ABCDEFGHIJKLMNOPQRSTUVWXYZabcdefghijklmnopqrstuvwxyz0123456789+/".data

/-- The character encoding a sextet value. -/
def encByte (n : Nat) : Char := b64chars.getD n 'A'

/-- The sextet value of a base64 character, `none` for a character outside
the alphabet. -/
def decChar (c : Char) : Option Nat := b64chars.findIdx? (· = c)

/-- Base64 encoding of a byte sequence with padding, as produced by
`btoa` (hence by `arrayBufferToBase64`). -/
def b64encode : List Nat → List Char
  | [] => []
  | [b1] => [encByte (b1 / 4), encByte (b1 % 4 * 16), '=', '=']
  | [b1, b2] =>
      [encByte (b1 / 4), encByte (b1 % 4 * 16 + b2 / 16),
       encByte (b2 % 16 * 4), '=']
  | b1 :: b2 :: b3 :: rest =>
      encByte (b1 / 4) :: encByte (b1 % 4 * 16 + b2 / 16) ::
      encByte (b2 % 16 * 4 + b3 / 64) :: encByte (b3 % 64) :: b64encode rest

/-- The sextet sequence of a byte sequence (encoding without the character
table and padding). -/
def b64core : List Nat → List Nat
  | [] => []
  | [b1] => [b1 / 4, b1 % 4 * 16]
  | [b1, b2] => [b1 / 4, b1 % 4 * 16 + b2 / 16, b2 % 16 * 4]
  | b1 :: b2 :: b3 :: rest =>
      (b1 / 4) :: (b1 % 4 * 16 + b2 / 16) :: (b2 % 16 * 4 + b3 / 64) ::
      (b3 % 64) :: b64core rest

/-- Number of `=` padding characters `btoa` appends. -/
def b64padLen (bs : List Nat) : Nat := (3 - bs.length % 3) % 3

/-- ASCII whitespace, which `atob` (forgiving base64) removes first. -/
def isB64Ws (c : Char) : Bool :=
  c = ' ' ∨ c = Char.ofNat 9 ∨ c = Char.ofNat 10 ∨ c = Char.ofNat 12 ∨
    c = Char.ofNat 13

/-- Helper for `stripPad`: drop up to two leading `=` from a reversed
character sequence. -/
def stripPadRev : List Char → List Char
  | [] => []
  | c :: r =>
      if c = '=' then
        match r with
        | [] => r
        | c2 :: r2 => if c2 = '=' then r2 else r
      else c :: r

/-- `atob`'s padding removal: when the length is a multiple of four, up to
two trailing `=` are dropped. -/
def stripPad (l : List Char) : List Char :=
  if l.length % 4 = 0 then (stripPadRev l.reverse).reverse else l

/-- Reassembling bytes from a sextet sequence; a leftover single sextet is
an error (length ≡ 1 mod 4 after padding removal). -/
def decodeQuads : List Nat → Option (List Nat)
  | [] => some []
  | [_] => none
  | [s1, s2] => some [s1 * 4 + s2 / 16]
  | [s1, s2, s3] => some [s1 * 4 + s2 / 16, s2 % 16 * 16 + s3 / 4]
  | s1 :: s2 :: s3 :: s4 :: rest =>
      (decodeQuads rest).map
        (fun t => (s1 * 4 + s2 / 16) :: (s2 % 16 * 16 + s3 / 4) ::
          (s3 % 4 * 64 + s4) :: t)

/-- Forgiving base64 decoding of a character sequence, as performed by
`atob` (hence by `base64ToArrayBuffer`): remove ASCII whitespace, strip
padding, reject characters outside the alphabet, reassemble bytes. -/
def b64decode (l : List Char) : Option (List Nat) :=
  match (stripPad (l.filter (fun c => ¬ isB64Ws c))).mapM decChar with
  | none => none
  | some ss => decodeQuads ss

/-- A byte sequence: every element below 256. -/
def ValidBytes (bs : List Nat) : Prop := ∀ b ∈ bs, b < 256

/-! ## The envelope and the encryption protocol (`src/lib/crypto.ts`)

`encrypt` / `decrypt` orchestrate the platform primitives
`window.crypto.subtle` (AES-GCM `seal` / `aeadOpen`, PBKDF2 `deriveKey`),
`TextEncoder` / `TextDecoder` (`utf8enc` / `utf8dec`) and
`window.crypto.getRandomValues`.  The platform primitives are parameters of
the model; their standard behaviour (AES-GCM decryption inverts encryption,
the text decoder inverts the encoder, ciphertexts and random values are
bytes) enters the theorems as explicit hypotheses.  `getRandomValues` is
modelled by a random byte stream `rng`, consumed left to right: the salt
takes positions 0–15 and the iv positions 16–27, as in the source, which
draws the 16-byte salt first and the 12-byte iv afterwards. -/

/-- The `CipherObject` returned by `encrypt`: ciphertext, iv and salt,
each base64-encoded. -/
structure CipherObject where
  data : String
  iv : String
  salt : String
deriving DecidableEq, Inhabited

/-- `window.crypto.getRandomValues(new Uint8Array(n))`, reading `n` bytes
of the stream `rng` starting at position `base`. -/
def drawBytes (rng : Nat → Nat) (base n : Nat) : List Nat :=
  (List.range n).map (fun i => rng (base + i) % 256)

/-- `encrypt(data, password)`: draw a fresh 16-byte salt, derive the key,
draw a fresh 12-byte iv, seal the UTF-8 encoded plaintext under AES-GCM,
and return the three fields base64-encoded. -/
def encrypt (aeadSeal : List Nat → List Nat → List Nat → List Nat)
    (derive : String → List Nat → List Nat)
    (utf8enc : String → List Nat)
    (data password : String) (rng : Nat → Nat) : CipherObject :=
  let salt := drawBytes rng 0 16
  let key := derive password salt
  let iv := drawBytes rng 16 12
  let ct := aeadSeal (utf8enc data) key iv
  { data := String.mk (b64encode ct),
    iv := String.mk (b64encode iv),
    salt := String.mk (b64encode salt) }

/-- How a `decrypt` call fails: `atob` throws `InvalidCharacterError` on a
field that is not base64, and `crypto.subtle.decrypt` rejects with an
`OperationError` when AES-GCM authentication fails.  There is no
malformed-envelope error and no length check anywhere in `decrypt`. -/
inductive DecryptError where
  | invalidCharacter : DecryptError
  | operationError : DecryptError
deriving DecidableEq

/-- The base64-decoding phase of `decrypt`, in source order: iv, then
salt, then data.  No length validation is performed on the decoded
buffers. -/
def decodeEnvelope (env : CipherObject) :
    Except DecryptError (List Nat × List Nat × List Nat) :=
  match b64decode env.iv.data with
  | none => .error .invalidCharacter
  | some iv =>
    match b64decode env.salt.data with
    | none => .error .invalidCharacter
    | some salt =>
      match b64decode env.data.data with
      | none => .error .invalidCharacter
      | some ct => .ok (iv, salt, ct)

/-- `decrypt(data, password)`: base64-decode the three fields, derive the
key from the password and salt, open the ciphertext under AES-GCM, decode
the plaintext as UTF-8. -/
def decrypt (aeadOpen : List Nat → List Nat → List Nat → Option (List Nat))
    (derive : String → List Nat → List Nat)
    (utf8dec : List Nat → String)
    (env : CipherObject) (password : String) : Except DecryptError String :=
  match decodeEnvelope env with
  | .error e => .error e
  | .ok (iv, salt, ct) =>
    let key := derive password salt
    match aeadOpen ct key iv with
    | none => .error .operationError
    | some pt => .ok (utf8dec pt)

/-! ## The message model (`src/models/message.ts`)

The Prisma store is a list of records; `findUnique`, `findMany`, `create`
and `update` are each one atomic store operation.  JavaScript `Date`
timestamps are `Nat`s.  `crypto.randomInt(62)` is modelled by a stream
`rnd` of random naturals, consumed left to right, reduced mod 62. -/

/-- A `Message` row: the externally exposed stub, the stored content, and
the read timestamp (`null` until consumed). -/
structure MessageRec where
  stub : String
  content : String
  readAt : Option Nat
deriving DecidableEq

/-- The record store. -/
abbrev Store := List MessageRec

/-- `prisma.message.findUnique({ where: { stub } })`. -/
def findUniqueStub (store : Store) (stub : String) : Option MessageRec :=
  store.find? (fun m => m.stub = stub)

/-- `prisma.message.update({ where: { stub }, data })`: replace the
record(s) with the given stub. -/
def updateStub (store : Store) (stub : String) (m' : MessageRec) : Store :=
  store.map (fun m => if m.stub = stub then m' else m)

/-- The `characters` constant of `generateUniqueStub`. -/
def stubChars : List Char :=
  "ABCDEFGHIJKLMNOPQRSTUVWXYZabcdefghijklmnopqrstuvwxyz0123456789".data

/-- One stub candidate: `stubLength` characters picked by
`crypto.randomInt(characters.length)`. -/
def mkCandidate (rnd : Nat → Nat) (base len : Nat) : String :=
  String.mk ((List.range len).map (fun i => stubChars.getD (rnd (base + i) % 62) 'A'))

/-- One batch of `batchSize` candidates. -/
def genCandidates (rnd : Nat → Nat) (base batchSize stubLength : Nat) :
    List String :=
  (List.range batchSize).map
    (fun i => mkCandidate rnd (base + i * stubLength) stubLength)

/-- The retry loop of `generateUniqueStub`: per retry, generate a batch,
look up which candidates are taken, and return the first untaken one;
`none` after the final retry. -/
def generateUniqueStubAux (store : Store) (rnd : Nat → Nat)
    (batchSize stubLength : Nat) : Nat → Nat → Option String
  | 0, _ => none
  | retriesLeft + 1, base =>
      let candidates := genCandidates rnd base batchSize stubLength
      match candidates.find? (fun c => (findUniqueStub store c).isNone) with
      | some c => some c
      | none =>
          generateUniqueStubAux store rnd batchSize stubLength retriesLeft
            (base + batchSize * stubLength)

/-- `generateUniqueStub(batchSize = 5, retries = 3, stubLength = 8)`:
returns a fresh stub, or `null` when every candidate of every retry is
taken. -/
def generateUniqueStub (store : Store) (rnd : Nat → Nat)
    (batchSize retries stubLength : Nat) : Option String :=
  generateUniqueStubAux store rnd batchSize stubLength retries 0

/-- The error lists collected for the `content` field by
`validateMessage`. -/
def contentErrors (content : String) : List String :=
  (if content = "" then ["Content is required"] else []) ++
  (if 10000 < content.length then ["Content is too long"] else [])

/-- The error lists collected for the `stub` field by `validateMessage`.
The alphanumeric check mirrors the regex `[^a-zA-Z0-9]`. -/
def stubErrors (store : Store) (stub : String) : List String :=
  (if stub = "" then ["Stub is required"] else []) ++
  (if stub.length < 8 ∨ 32 < stub.length then
    ["Stub must be between 8 and 32 characters"] else []) ++
  (if (findUniqueStub store stub).isSome then ["Stub must be unique"]
    else []) ++
  (if stub.data.any (fun c => ¬ c.isAlphanum) then
    ["Stub must be alphanumeric"] else [])

/-- The `errors` record of a thrown `ModelValidationError`
(`src/lib/modelValidationError.ts`). -/
structure ValidationErrors where
  content : List String
  stub : List String
deriving DecidableEq

/-- `validateMessage`: collect every violated rule for both fields and
throw (return `some errors`) iff any list is non-empty. -/
def validateMessage (store : Store) (content stub : String) :
    Option ValidationErrors :=
  let errs : ValidationErrors := ⟨contentErrors content, stubErrors store stub⟩
  if errs.content = [] ∧ errs.stub = [] then none else some errs

/-- `createMessage(content)`: allocate a stub (empty string when
allocation is exhausted), validate, then insert.  The pair's second
component is the store after the call. -/
def createMessage (store : Store) (content : String) (rnd : Nat → Nat) :
    Except ValidationErrors MessageRec × Store :=
  let stub := (generateUniqueStub store rnd 5 3 8).getD ""
  match validateMessage store content stub with
  | some errs => (.error errs, store)
  | none =>
      let m : MessageRec := ⟨stub, content, none⟩
      (.ok m, store ++ [m])

/-- `markMessageAsRead(stub)`: one `findUnique`, then — only if the
record exists and is unread — one `update` writing the sentinel content
and the read timestamp together.  Returns the updated record, or `null`
when the record is missing or already read. -/
def markMessageAsRead (now : Nat) (store : Store) (stub : String) :
    Option MessageRec × Store :=
  match findUniqueStub store stub with
  | none => (none, store)
  | some m =>
      if m.readAt.isSome then (none, store)
      else
        let m' : MessageRec := { m with content := "DEADBEEF", readAt := some now }
        (some m', updateStub store stub m')

/-- A sequence of `markMessageAsRead` calls (stub and timestamp each),
applied to the store one after the other. -/
def applyReads (ops : List (String × Nat)) (store : Store) : Store :=
  ops.foldl (fun st op => (markMessageAsRead op.2 st op.1).2) store

/-- Responses of the POST creation handler
(`src/app/api/message/route.ts`). -/
inductive PostResponse where
  | ok (stub : String) : PostResponse
  | unprocessable (errors : ValidationErrors) : PostResponse
deriving DecidableEq

/-- The POST handler: `createMessage(await request.text())` — the whole
raw request body is the content — answering with the new record's stub,
or 422 with the validation errors. -/
def POST (body : String) (store : Store) (rnd : Nat → Nat) :
    PostResponse × Store :=
  match createMessage store body rnd with
  | (.ok m, st) => (.ok m.stub, st)
  | (.error e, st) => (.unprocessable e, st)

/-! ## Concurrent executions of the GET fetch/consume handler

The GET handler (`src/app/api/message/[stub]/route.ts`) performs
`getMessage` (one store read), then `markMessageAsRead` (one store read,
then conditionally one store write), and answers with the content and
`readAt` captured by the *first* read.  A process is a program counter
plus the values captured so far; a schedule interleaves the atomic store
operations of several such processes. -/

/-- One in-flight GET request: `pc = 0` before the `getMessage` read,
`1` before `markMessageAsRead`'s read, `2` before its conditional write,
`3` done.  `result` is the `(content, readAt)` pair of the response,
`none` while running or on 404. -/
structure FetchProc where
  stub : String
  now : Nat
  pc : Nat
  fetched : Option MessageRec
  observed : Option MessageRec
  result : Option (String × Option Nat)
deriving DecidableEq

/-- One atomic step of a GET request against the shared store. -/
def stepFetch (store : Store) (p : FetchProc) : Store × FetchProc :=
  if p.pc = 0 then
    match findUniqueStub store p.stub with
    | none => (store, { p with pc := 3 })
    | some m => (store, { p with pc := 1, fetched := some m })
  else if p.pc = 1 then
    (store, { p with pc := 2, observed := findUniqueStub store p.stub })
  else if p.pc = 2 then
    let st' :=
      match p.observed with
      | some m =>
          if m.readAt.isSome then store
          else updateStub store p.stub
            { m with content := "DEADBEEF", readAt := some p.now }
      | none => store
    (st',
      { p with
        pc := 3
        result := p.fetched.map (fun m => (m.content, m.readAt)) })
  else (store, p)

/-- Run a schedule: each entry names the process taking the next atomic
step. -/
def runSched (sched : List Nat) (store : Store) (procs : List FetchProc) :
    Store × List FetchProc :=
  match sched with
  | [] => (store, procs)
  | pid :: rest =>
      match procs.get? pid with
      | none => runSched rest store procs
      | some p =>
          let sp := stepFetch store p
          runSched rest sp.1 (procs.set pid sp.2)

/-- A fresh GET request for a stub. -/
def initFetch (stub : String) (now : Nat) : FetchProc :=
  ⟨stub, now, 0, none, none, none⟩

/-! ## Concrete instances of the platform primitives

Toy AEAD and text-codec instances satisfying the hypotheses of the
protocol theorems, used to evaluate them on concrete inputs. -/

/-- A toy AEAD seal: prepend the iv to the plaintext. -/
def toySeal (pt _key iv : List Nat) : List Nat := iv ++ pt

/-- The matching toy AEAD opening: drop the iv prefix. -/
def toyOpen (ct _key iv : List Nat) : Option (List Nat) :=
  some (ct.drop iv.length)

/-- A toy key-derivation function. -/
def toyDerive (_password : String) (_salt : List Nat) : List Nat := []

/-- A toy injective text-to-bytes encoding: three bytes per character,
little-endian. -/
def toyUtf8enc (s : String) : List Nat :=
  s.data.flatMap
    (fun c => [c.toNat % 256, c.toNat / 256 % 256, c.toNat / 65536 % 256])

/-- Inverse character decoding for `toyUtf8enc`. -/
def toyUtf8decChars : List Nat → List Char
  | b0 :: b1 :: b2 :: rest =>
      Char.ofNat (b0 + 256 * b1 + 65536 * b2) :: toyUtf8decChars rest
  | _ => []

/-- The toy bytes-to-text decoding. -/
def toyUtf8dec (bs : List Nat) : String := String.mk (toyUtf8decChars bs)

/-! ## Codec round-trip lemmas -/

lemma decChar_encByte : ∀ n < 64, decChar (encByte n) = some n := by decide

lemma encByte_not_ws : ∀ n < 64, isB64Ws (encByte n) = false := by decide

lemma encByte_ne_eq : ∀ n < 64, encByte n ≠ '=' := by decide

lemma eqChar_not_ws : isB64Ws '=' = false := by decide

lemma b64core_lt (bs : List Nat) (h : ValidBytes bs) :
    ∀ s ∈ b64core bs, s < 64 := by
  induction bs using b64core.induct with
  | case1 => simp [b64core]
  | case2 b1 =>
      have := h b1 (by simp)
      simp only [b64core, List.mem_cons, List.not_mem_nil, or_false]
      rintro s (rfl | rfl) <;> omega
  | case3 b1 b2 =>
      have h1 := h b1 (by simp)
      have h2 := h b2 (by simp)
      simp only [b64core, List.mem_cons, List.not_mem_nil, or_false]
      rintro s (rfl | rfl | rfl) <;> omega
  | case4 b1 b2 b3 rest ih =>
      have h1 := h b1 (by simp)
      have h2 := h b2 (by simp)
      have h3 := h b3 (by simp)
      simp only [b64core, List.mem_cons]
      rintro s (rfl | rfl | rfl | rfl | hs)
      · omega
      · omega
      · omega
      · omega
      · exact ih (fun b hb => h b (by simp [hb])) s hs

lemma b64encode_eq (bs : List Nat) :
    b64encode bs = (b64core bs).map encByte ++
      List.replicate (b64padLen bs) '=' := by
  induction bs using b64core.induct with
  | case1 => simp [b64encode, b64core, b64padLen]
  | case2 b1 => simp [b64encode, b64core, b64padLen, List.replicate]
  | case3 b1 b2 => simp [b64encode, b64core, b64padLen, List.replicate]
  | case4 b1 b2 b3 rest ih =>
      have hp : b64padLen (b1 :: b2 :: b3 :: rest) = b64padLen rest := by
        simp only [b64padLen, List.length_cons]
        omega
      simp [b64encode, b64core, hp, ih]

lemma b64core_len_mod (bs : List Nat) :
    ((b64core bs).length + b64padLen bs) % 4 = 0 := by
  induction bs using b64core.induct with
  | case1 => simp [b64core, b64padLen]
  | case2 b1 => simp [b64core, b64padLen]
  | case3 b1 b2 => simp [b64core, b64padLen]
  | case4 b1 b2 b3 rest ih =>
      have hp : b64padLen (b1 :: b2 :: b3 :: rest) = b64padLen rest := by
        simp only [b64padLen, List.length_cons]
        omega
      simp only [b64core, List.length_cons, hp]
      omega

lemma b64padLen_le (bs : List Nat) : b64padLen bs ≤ 2 := by
  simp only [b64padLen]
  omega

lemma b64core_nil_iff (bs : List Nat) : b64core bs = [] ↔ bs = [] := by
  cases bs with
  | nil => simp [b64core]
  | cons b t => cases t with
    | nil => simp [b64core]
    | cons b2 t2 => cases t2 <;> simp [b64core]

lemma stripPad_append (l : List Char) (k : Nat) (hk : k ≤ 2)
    (hne : ∀ c ∈ l, c ≠ '=') (hmod : (l.length + k) % 4 = 0)
    (hnil : l = [] → k = 0) :
    stripPad (l ++ List.replicate k '=') = l := by
  have hlen : (l ++ List.replicate k '=').length % 4 = 0 := by
    simp only [List.length_append, List.length_replicate]
    exact hmod
  unfold stripPad
  rw [if_pos hlen]
  interval_cases k
  · -- no padding: the reverse starts with a non-'=' character (or is empty)
    simp only [List.replicate, List.append_nil]
    cases hl : l.reverse with
    | nil =>
        have : l = [] := by simpa using congrArg List.reverse hl
        simp [this, stripPadRev]
    | cons c r =>
        have hc : c ∈ l := by
          have : c ∈ l.reverse := by simp [hl]
          simpa using this
        have hcne := hne c hc
        simp [stripPadRev, hcne, ← hl]
  · -- one '=' of padding
    have hrev : (l ++ List.replicate 1 '=').reverse = '=' :: l.reverse := by
      simp [List.replicate]
    rw [hrev]
    cases hl : l.reverse with
    | nil =>
        have : l = [] := by simpa using congrArg List.reverse hl
        exact absurd (hnil this) (by omega)
    | cons c r =>
        have hc : c ∈ l := by
          have : c ∈ l.reverse := by simp [hl]
          simpa using this
        have hcne := hne c hc
        simp [stripPadRev, hcne, ← hl]
  · -- two '=' of padding
    have hrev : (l ++ List.replicate 2 '=').reverse =
        '=' :: '=' :: l.reverse := by
      simp [List.replicate]
    rw [hrev]
    simp [stripPadRev]

lemma mapM_decChar (ss : List Nat) (h : ∀ s ∈ ss, s < 64) :
    (ss.map encByte).mapM decChar = some ss := by
  induction ss with
  | nil => rfl
  | cons s t ih =>
      have hs := h s (by simp)
      rw [List.map_cons, List.mapM_cons, decChar_encByte s hs,
        ih (fun x hx => h x (by simp [hx]))]
      rfl

lemma decodeQuads_core (bs : List Nat) (h : ValidBytes bs) :
    decodeQuads (b64core bs) = some bs := by
  induction bs using b64core.induct with
  | case1 => simp [b64core, decodeQuads]
  | case2 b1 =>
      have h1 := h b1 (by simp)
      simp only [b64core, decodeQuads, Option.some.injEq, List.cons.injEq,
        and_true]
      omega
  | case3 b1 b2 =>
      have h1 := h b1 (by simp)
      have h2 := h b2 (by simp)
      simp only [b64core, decodeQuads, Option.some.injEq, List.cons.injEq,
        and_true]
      constructor <;> omega
  | case4 b1 b2 b3 rest ih =>
      have h1 := h b1 (by simp)
      have h2 := h b2 (by simp)
      have h3 := h b3 (by simp)
      have ih' := ih (fun b hb => h b (by simp [hb]))
      simp only [b64core, decodeQuads, ih', Option.map_some',
        Option.some.injEq, List.cons.injEq]
      repeat' apply And.intro
      all_goals first | trivial | omega

/-- `base64ToArrayBuffer` inverts `arrayBufferToBase64` on byte
sequences. -/
theorem b64decode_encode (bs : List Nat) (h : ValidBytes bs) :
    b64decode (b64encode bs) = some bs := by
  have hcore := b64core_lt bs h
  have hfilter :
      (b64encode bs).filter (fun c => ¬ isB64Ws c) = b64encode bs := by
    rw [List.filter_eq_self]
    intro c hc
    rw [b64encode_eq] at hc
    rcases List.mem_append.mp hc with hc | hc
    · rcases List.mem_map.mp hc with ⟨s, hs, rfl⟩
      simp [encByte_not_ws s (hcore s hs)]
    · have : c = '=' := List.eq_of_mem_replicate hc
      simp [this, eqChar_not_ws]
  have hstrip :
      stripPad (b64encode bs) = (b64core bs).map encByte := by
    rw [b64encode_eq]
    refine stripPad_append _ _ (b64padLen_le bs) ?_ ?_ ?_
    · intro c hc
      rcases List.mem_map.mp hc with ⟨s, hs, rfl⟩
      exact encByte_ne_eq s (hcore s hs)
    · simpa using b64core_len_mod bs
    · intro hempty
      have : b64core bs = [] := by simpa using hempty
      have : bs = [] := (b64core_nil_iff bs).mp this
      simp [this, b64padLen]
  unfold b64decode
  rw [hfilter, hstrip, mapM_decChar _ hcore]
  exact decodeQuads_core bs h

/-- On byte sequences, base64 encoding is injective. -/
theorem b64encode_inj (a b : List Nat) (ha : ValidBytes a)
    (hb : ValidBytes b) (h : b64encode a = b64encode b) : a = b := by
  have := (b64decode_encode a ha).symm.trans
    (by rw [h, b64decode_encode b hb])
  exact Option.some.inj this

lemma drawBytes_valid (rng : Nat → Nat) (base n : Nat) :
    ValidBytes (drawBytes rng base n) := by
  intro b hb
  simp only [drawBytes, List.mem_map] at hb
  obtain ⟨i, -, rfl⟩ := hb
  omega

lemma drawBytes_length (rng : Nat → Nat) (base n : Nat) :
    (drawBytes rng base n).length = n := by
  simp [drawBytes]

lemma toyOpen_toySeal (pt key iv : List Nat) :
    toyOpen (toySeal pt key iv) key iv = some pt := by
  simp [toyOpen, toySeal, List.drop_left]

lemma toySeal_valid (pt key iv : List Nat) (hpt : ValidBytes pt)
    (hiv : ValidBytes iv) : ValidBytes (toySeal pt key iv) := by
  intro b hb
  rcases List.mem_append.mp hb with h | h
  · exact hiv b h
  · exact hpt b h

lemma toyUtf8enc_valid (s : String) : ValidBytes (toyUtf8enc s) := by
  intro b hb
  simp only [toyUtf8enc, List.mem_flatMap, List.mem_cons,
    List.not_mem_nil, or_false] at hb
  obtain ⟨c, -, h⟩ := hb
  rcases h with rfl | rfl | rfl <;> omega

lemma char_toNat_lt (c : Char) : c.toNat < 1114112 := by
  rcases c.valid with h | ⟨-, h⟩
  · exact Nat.lt_trans h (by norm_num)
  · exact h

lemma toyUtf8decChars_enc (cs : List Char) :
    toyUtf8decChars (cs.flatMap
      (fun c => [c.toNat % 256, c.toNat / 256 % 256, c.toNat / 65536 % 256]))
      = cs := by
  induction cs with
  | nil => rfl
  | cons c t ih =>
      have hlt := char_toNat_lt c
      have harg : c.toNat % 256 + 256 * (c.toNat / 256 % 256) +
          65536 * (c.toNat / 65536 % 256) = c.toNat := by omega
      calc toyUtf8decChars ((c :: t).flatMap
              (fun c => [c.toNat % 256, c.toNat / 256 % 256,
                c.toNat / 65536 % 256]))
          = Char.ofNat (c.toNat % 256 + 256 * (c.toNat / 256 % 256) +
              65536 * (c.toNat / 65536 % 256)) ::
            toyUtf8decChars (t.flatMap
              (fun c => [c.toNat % 256, c.toNat / 256 % 256,
                c.toNat / 65536 % 256])) := rfl
        _ = c :: t := by rw [harg, Char.ofNat_toNat, ih]

lemma toyUtf8_roundtrip (s : String) : toyUtf8dec (toyUtf8enc s) = s := by
  unfold toyUtf8dec toyUtf8enc
  rw [toyUtf8decChars_enc]

/-! ## C1: encrypt/decrypt round-trip -/

/-- C1: for every plaintext string and every password, decrypting the
envelope produced by `encrypt` with the same password returns the
original plaintext — given the platform contracts: AES-GCM decryption
inverts encryption under the same key and iv, ciphertexts are byte
sequences, and the UTF-8 decoder inverts the encoder. -/
theorem encrypt_decrypt_roundtrip
    (aeadSeal : List Nat → List Nat → List Nat → List Nat)
    (aeadOpen : List Nat → List Nat → List Nat → Option (List Nat))
    (derive : String → List Nat → List Nat)
    (utf8enc : String → List Nat) (utf8dec : List Nat → String)
    (hopen : ∀ pt key iv, aeadOpen (aeadSeal pt key iv) key iv = some pt)
    (hsealBytes : ∀ pt key iv, ValidBytes pt → ValidBytes iv →
      ValidBytes (aeadSeal pt key iv))
    (hutf8 : ∀ s, utf8dec (utf8enc s) = s)
    (hutf8v : ∀ s, ValidBytes (utf8enc s))
    (data password : String) (rng : Nat → Nat) :
    decrypt aeadOpen derive utf8dec
      (encrypt aeadSeal derive utf8enc data password rng) password =
      .ok data := by
  have hiv := b64decode_encode _ (drawBytes_valid rng 16 12)
  have hsalt := b64decode_encode _ (drawBytes_valid rng 0 16)
  have hct := b64decode_encode _
    (hsealBytes (utf8enc data) (derive password (drawBytes rng 0 16))
      (drawBytes rng 16 12) (hutf8v data) (drawBytes_valid rng 16 12))
  simp [encrypt, decrypt, decodeEnvelope, hiv, hsalt, hct, hopen, hutf8]

/-- Witness for C1 at a concrete plaintext, password and random stream,
with the toy primitives. -/
theorem encrypt_decrypt_roundtrip_witness :
    decrypt toyOpen toyDerive toyUtf8dec
      (encrypt toySeal toyDerive toyUtf8enc "hello" "pw" (fun n => n))
      "pw" = .ok "hello" :=
  encrypt_decrypt_roundtrip toySeal toyOpen toyDerive toyUtf8enc toyUtf8dec
    toyOpen_toySeal toySeal_valid toyUtf8_roundtrip toyUtf8enc_valid
    "hello" "pw" (fun n => n)

/-! ## C4: what `decrypt` validates, and what it does not -/

/-- C4 counterexample: an envelope whose three fields are valid base64
but whose salt decodes to 15 bytes (≠ 16).  `decodeEnvelope` succeeds, so
`decrypt` proceeds to key derivation and AES-GCM instead of failing with
a malformed-envelope error before cipher operations — with a cipher that
accepts the buffers, `decrypt` even returns successfully.  There is no
`MalformedEnvelope` failure anywhere in `decrypt`. -/
theorem decrypt_accepts_bad_salt_length :
    decodeEnvelope
      { data := String.mk (b64encode [1, 2, 3]),
        iv := String.mk (b64encode (List.replicate 12 0)),
        salt := String.mk (b64encode (List.replicate 15 0)) } =
      .ok (List.replicate 12 0, List.replicate 15 0, [1, 2, 3]) ∧
    (List.replicate 15 0).length ≠ 16 ∧
    decrypt (fun ct _ _ => some ct) (fun _ _ => []) (fun _ => "plain")
      { data := String.mk (b64encode [1, 2, 3]),
        iv := String.mk (b64encode (List.replicate 12 0)),
        salt := String.mk (b64encode (List.replicate 15 0)) } "pw" =
      .ok "plain" :=
  ⟨rfl, by decide, rfl⟩

/-- C4 (amended): a field that is not valid base64 makes `decrypt` fail
with the decoder's `InvalidCharacterError`, before and independently of
any cipher operation; but the decoded iv and salt lengths are never
checked — whenever all three fields decode, `decrypt` hands the buffers
to key derivation and AES-GCM whatever their lengths. -/
theorem decrypt_base64_error_before_cipher :
    (∀ env : CipherObject,
      b64decode env.iv.data = none ∨ b64decode env.salt.data = none ∨
        b64decode env.data.data = none →
      decodeEnvelope env = .error .invalidCharacter) ∧
    (∀ (env : CipherObject) (password : String) (e : DecryptError)
      aeadOpen derive utf8dec, decodeEnvelope env = .error e →
      decrypt aeadOpen derive utf8dec env password = .error e) ∧
    (∀ (env : CipherObject) (password : String) iv salt ct
      aeadOpen derive utf8dec, decodeEnvelope env = .ok (iv, salt, ct) →
      decrypt aeadOpen derive utf8dec env password =
        match aeadOpen ct (derive password salt) iv with
        | none => .error .operationError
        | some pt => .ok (utf8dec pt)) := by
  refine ⟨?_, ?_, ?_⟩
  · intro env h
    unfold decodeEnvelope
    rcases h with h | h | h
    · rw [h]
    · cases hiv : b64decode env.iv.data with
      | none => rfl
      | some iv => rw [h]
    · cases hiv : b64decode env.iv.data with
      | none => rfl
      | some iv =>
          cases hsalt : b64decode env.salt.data with
          | none => rfl
          | some salt => rw [h]
  · intro env password e aeadOpen derive utf8dec h
    unfold decrypt
    rw [h]
  · intro env password iv salt ct aeadOpen derive utf8dec h
    unfold decrypt
    rw [h]

/-- Witness for the amended C4: an envelope with a non-base64 iv field
fails with `InvalidCharacterError` for every cipher. -/
theorem decrypt_base64_error_before_cipher_witness :
    decrypt (fun ct _ _ => some ct) (fun _ _ => []) (fun _ => "plain")
      { data := "AAAA", iv := "!!!!", salt := "AAAA" } "pw" =
      .error .invalidCharacter :=
  decrypt_base64_error_before_cipher.2.1
    { data := "AAAA", iv := "!!!!", salt := "AAAA" } "pw" .invalidCharacter
    (fun ct _ _ => some ct) (fun _ _ => []) (fun _ => "plain")
    (decrypt_base64_error_before_cipher.1
      { data := "AAAA", iv := "!!!!", salt := "AAAA" } (by decide))

/-! ## C5: freshness of salt and iv -/

/-- C5: every `encrypt` call draws its 16-byte salt and 12-byte iv from
the random source at encryption time (salt from stream positions 0–15,
iv from 16–27), and two encryptions of the same plaintext under the same
password whose random draws differ produce different `salt`, different
`iv`, and — for a cipher that separates distinct ivs — different
ciphertext fields. -/
theorem encrypt_fresh_iv_salt :
    (∀ aeadSeal derive utf8enc (data password : String) (rng : Nat → Nat),
      (encrypt aeadSeal derive utf8enc data password rng).salt =
        String.mk (b64encode (drawBytes rng 0 16)) ∧
      (encrypt aeadSeal derive utf8enc data password rng).iv =
        String.mk (b64encode (drawBytes rng 16 12)) ∧
      (encrypt aeadSeal derive utf8enc data password rng).data =
        String.mk (b64encode (aeadSeal (utf8enc data)
          (derive password (drawBytes rng 0 16)) (drawBytes rng 16 12)))) ∧
    (∀ aeadSeal derive utf8enc (data password : String)
      (rng1 rng2 : Nat → Nat),
      drawBytes rng1 0 16 ≠ drawBytes rng2 0 16 →
      (encrypt aeadSeal derive utf8enc data password rng1).salt ≠
        (encrypt aeadSeal derive utf8enc data password rng2).salt) ∧
    (∀ aeadSeal derive utf8enc (data password : String)
      (rng1 rng2 : Nat → Nat),
      drawBytes rng1 16 12 ≠ drawBytes rng2 16 12 →
      (encrypt aeadSeal derive utf8enc data password rng1).iv ≠
        (encrypt aeadSeal derive utf8enc data password rng2).iv) ∧
    (∀ aeadSeal derive utf8enc (data password : String)
      (rng1 rng2 : Nat → Nat),
      (∀ pt key1 iv1 key2 iv2, iv1 ≠ iv2 →
        aeadSeal pt key1 iv1 ≠ aeadSeal pt key2 iv2) →
      (∀ pt key iv, ValidBytes pt → ValidBytes iv →
        ValidBytes (aeadSeal pt key iv)) →
      (∀ s, ValidBytes (utf8enc s)) →
      drawBytes rng1 16 12 ≠ drawBytes rng2 16 12 →
      (encrypt aeadSeal derive utf8enc data password rng1).data ≠
        (encrypt aeadSeal derive utf8enc data password rng2).data) := by
  refine ⟨fun _ _ _ _ _ _ => ⟨rfl, rfl, rfl⟩, ?_, ?_, ?_⟩
  · intro aeadSeal derive utf8enc data password rng1 rng2 hdraw heq
    apply hdraw
    have hlist : b64encode (drawBytes rng1 0 16) =
        b64encode (drawBytes rng2 0 16) := by
      have := congrArg String.data heq
      simpa [encrypt] using this
    exact b64encode_inj _ _ (drawBytes_valid rng1 0 16)
      (drawBytes_valid rng2 0 16) hlist
  · intro aeadSeal derive utf8enc data password rng1 rng2 hdraw heq
    apply hdraw
    have hlist : b64encode (drawBytes rng1 16 12) =
        b64encode (drawBytes rng2 16 12) := by
      have := congrArg String.data heq
      simpa [encrypt] using this
    exact b64encode_inj _ _ (drawBytes_valid rng1 16 12)
      (drawBytes_valid rng2 16 12) hlist
  · intro aeadSeal derive utf8enc data password rng1 rng2 hinj hbytes
      hutf8v hdraw heq
    have hlist : b64encode (aeadSeal (utf8enc data)
        (derive password (drawBytes rng1 0 16)) (drawBytes rng1 16 12)) =
        b64encode (aeadSeal (utf8enc data)
          (derive password (drawBytes rng2 0 16)) (drawBytes rng2 16 12)) := by
      have := congrArg String.data heq
      simpa [encrypt] using this
    have hcts := b64encode_inj _ _
      (hbytes _ _ _ (hutf8v data) (drawBytes_valid rng1 16 12))
      (hbytes _ _ _ (hutf8v data) (drawBytes_valid rng2 16 12)) hlist
    exact hinj (utf8enc data) _ _ _ _ hdraw hcts

lemma toySeal_iv_inj (pt key1 iv1 key2 iv2 : List Nat) (h : iv1 ≠ iv2) :
    toySeal pt key1 iv1 ≠ toySeal pt key2 iv2 :=
  fun heq => h (List.append_cancel_right heq)

/-- Witness for C5 at two concrete random streams that differ. -/
theorem encrypt_fresh_iv_salt_witness :
    (encrypt toySeal toyDerive toyUtf8enc "hello" "pw" (fun _ => 0)).salt ≠
      (encrypt toySeal toyDerive toyUtf8enc "hello" "pw" (fun _ => 1)).salt ∧
    (encrypt toySeal toyDerive toyUtf8enc "hello" "pw" (fun _ => 0)).iv ≠
      (encrypt toySeal toyDerive toyUtf8enc "hello" "pw" (fun _ => 1)).iv ∧
    (encrypt toySeal toyDerive toyUtf8enc "hello" "pw" (fun _ => 0)).data ≠
      (encrypt toySeal toyDerive toyUtf8enc "hello" "pw" (fun _ => 1)).data :=
  ⟨encrypt_fresh_iv_salt.2.1 toySeal toyDerive toyUtf8enc "hello" "pw"
      (fun _ => 0) (fun _ => 1) (by decide),
   encrypt_fresh_iv_salt.2.2.1 toySeal toyDerive toyUtf8enc "hello" "pw"
      (fun _ => 0) (fun _ => 1) (by decide),
   encrypt_fresh_iv_salt.2.2.2 toySeal toyDerive toyUtf8enc "hello" "pw"
      (fun _ => 0) (fun _ => 1) toySeal_iv_inj toySeal_valid
      toyUtf8enc_valid (by decide)⟩

/-! ## Store lemmas -/

lemma find_stub_eq (store : Store) (stub : String) (m : MessageRec)
    (h : findUniqueStub store stub = some m) : m.stub = stub := by
  have := List.find?_some h
  simpa using this

lemma find_update_self (store : Store) (s : String) (m' : MessageRec)
    (h : m'.stub = s) (m : MessageRec)
    (hf : findUniqueStub store s = some m) :
    findUniqueStub (updateStub store s m') s = some m' := by
  induction store with
  | nil => simp [findUniqueStub] at hf
  | cons a t ih =>
      by_cases ha : a.stub = s
      · simp [findUniqueStub, updateStub, List.find?, ha, h]
      · simp only [findUniqueStub, updateStub, List.map_cons, if_neg ha,
          List.find?] at hf ⊢
        rw [decide_eq_false ha] at hf ⊢
        exact ih hf

lemma find_update_other (store : Store) (s s' : String) (m' : MessageRec)
    (hm : m'.stub = s') (hne : s' ≠ s) :
    findUniqueStub (updateStub store s' m') s = findUniqueStub store s := by
  induction store with
  | nil => rfl
  | cons a t ih =>
      by_cases ha : a.stub = s'
      · have hna : ¬ a.stub = s := by rw [ha]; exact hne
        have hnm : ¬ m'.stub = s := by rw [hm]; exact hne
        simp only [findUniqueStub, updateStub, List.map_cons, if_pos ha,
          List.find?, decide_eq_false hna, decide_eq_false hnm] at ih ⊢
        exact ih
      · simp only [findUniqueStub, updateStub, List.map_cons, if_neg ha,
          List.find?] at ih ⊢
        cases hd : decide (a.stub = s) <;> simp [hd, ih]

lemma mark_preserves_consumed (store : Store) (s' : String) (t' : Nat)
    (stub : String) (c : MessageRec)
    (hc : findUniqueStub store stub = some c) (hread : c.readAt.isSome) :
    findUniqueStub ((markMessageAsRead t' store s').2) stub = some c := by
  unfold markMessageAsRead
  cases hfind : findUniqueStub store s' with
  | none => exact hc
  | some m =>
      by_cases hm : m.readAt.isSome
      · simp only [hm, if_true]
        exact hc
      · simp only [hm, if_false, Bool.false_eq_true]
        by_cases hss : s' = stub
        · subst hss
          rw [hfind] at hc
          have : m = c := by injection hc
          subst this
          exact absurd hread hm
        · rw [find_update_other store stub s' ⟨m.stub, "DEADBEEF", some t'⟩
            (find_stub_eq store s' m hfind) hss]
          exact hc

lemma applyReads_preserves_consumed (ops : List (String × Nat))
    (store : Store) (stub : String) (c : MessageRec)
    (hc : findUniqueStub store stub = some c) (hread : c.readAt.isSome) :
    findUniqueStub (applyReads ops store) stub = some c := by
  induction ops generalizing store with
  | nil => exact hc
  | cons op rest ih =>
      exact ih ((markMessageAsRead op.2 store op.1).2)
        (mark_preserves_consumed store op.1 op.2 stub c hc hread)

/-! ## C3: the consume transition is a single update, taken once -/

/-- C3: on a pending record, `markMessageAsRead` replaces `content` with
the sentinel `"DEADBEEF"` and sets `readAt` in one store update (the
record after the call carries both changes, and the returned record is
that same value); and no later sequence of `markMessageAsRead` calls —
against this stub or any other — ever changes the consumed record
again. -/
theorem markMessageAsRead_consume_once (store : Store) (stub : String)
    (m : MessageRec) (now : Nat) (ops : List (String × Nat))
    (hfind : findUniqueStub store stub = some m)
    (hpending : m.readAt = none) :
    findUniqueStub ((markMessageAsRead now store stub).2) stub =
      some ⟨stub, "DEADBEEF", some now⟩ ∧
    (markMessageAsRead now store stub).1 =
      some ⟨stub, "DEADBEEF", some now⟩ ∧
    findUniqueStub (applyReads ops ((markMessageAsRead now store stub).2))
      stub = some ⟨stub, "DEADBEEF", some now⟩ := by
  have hstub := find_stub_eq store stub m hfind
  have hm' : ({ m with content := "DEADBEEF", readAt := some now }
      : MessageRec) = ⟨stub, "DEADBEEF", some now⟩ := by
    cases m
    simp_all
  have h2 : (markMessageAsRead now store stub).2 =
      updateStub store stub ⟨stub, "DEADBEEF", some now⟩ := by
    unfold markMessageAsRead
    rw [hfind]
    simp [hpending, hm']
  have h1 : findUniqueStub ((markMessageAsRead now store stub).2) stub =
      some ⟨stub, "DEADBEEF", some now⟩ := by
    rw [h2]
    exact find_update_self store stub _ rfl m hfind
  refine ⟨h1, ?_, ?_⟩
  · unfold markMessageAsRead
    rw [hfind]
    simp [hpending, hm']
  · exact applyReads_preserves_consumed ops _ stub _ h1 rfl

/-- Witness for C3 on a concrete pending record and a concrete later
call sequence. -/
theorem markMessageAsRead_consume_once_witness :
    findUniqueStub ((markMessageAsRead 1 [⟨"abcdefgh", "SECRET", none⟩]
      "abcdefgh").2) "abcdefgh" = some ⟨"abcdefgh", "DEADBEEF", some 1⟩ ∧
    (markMessageAsRead 1 [⟨"abcdefgh", "SECRET", none⟩] "abcdefgh").1 =
      some ⟨"abcdefgh", "DEADBEEF", some 1⟩ ∧
    findUniqueStub (applyReads [("abcdefgh", 5), ("zzzzzzzz", 6)]
      ((markMessageAsRead 1 [⟨"abcdefgh", "SECRET", none⟩] "abcdefgh").2))
      "abcdefgh" = some ⟨"abcdefgh", "DEADBEEF", some 1⟩ :=
  markMessageAsRead_consume_once [⟨"abcdefgh", "SECRET", none⟩] "abcdefgh"
    ⟨"abcdefgh", "SECRET", none⟩ 1 [("abcdefgh", 5), ("zzzzzzzz", 6)]
    (by decide) rfl

/-! ## C9: the two null-returning cases of `markMessageAsRead` -/

/-- C9: `markMessageAsRead` returns `null` both when no record with the
stub exists and when the record is already read, leaving the store
untouched in both cases — the two outcomes are identical, so the caller
cannot tell them apart from the return value. -/
theorem markMessageAsRead_null_cases (store : Store) (stub : String)
    (now : Nat) :
    (findUniqueStub store stub = none →
      markMessageAsRead now store stub = (none, store)) ∧
    (∀ m, findUniqueStub store stub = some m → m.readAt.isSome →
      markMessageAsRead now store stub = (none, store)) := by
  constructor
  · intro h
    unfold markMessageAsRead
    rw [h]
  · intro m h hm
    unfold markMessageAsRead
    rw [h]
    simp [hm]

/-- Witness for C9: a missing stub and an already-read record yield the
same result on a concrete store. -/
theorem markMessageAsRead_null_cases_witness :
    markMessageAsRead 2 [⟨"abcdefgh", "DEADBEEF", some 1⟩] "missing" =
      (none, [⟨"abcdefgh", "DEADBEEF", some 1⟩]) ∧
    markMessageAsRead 2 [⟨"abcdefgh", "DEADBEEF", some 1⟩] "abcdefgh" =
      (none, [⟨"abcdefgh", "DEADBEEF", some 1⟩]) :=
  ⟨(markMessageAsRead_null_cases [⟨"abcdefgh", "DEADBEEF", some 1⟩]
      "missing" 2).1 (by decide),
   (markMessageAsRead_null_cases [⟨"abcdefgh", "DEADBEEF", some 1⟩]
      "abcdefgh" 2).2 ⟨"abcdefgh", "DEADBEEF", some 1⟩ (by decide) rfl⟩

/-! ## C2: the read-check-write consume transition races -/

/-- C2: the consume transition is *not* an atomic compare-and-set.  Two
concurrent GET fetch/consume requests against the same pending record,
interleaved so that both reads precede both writes, each observe
`prior_readAt = null` and each receive the original content `"SECRET"`;
the second write then overwrites the first one's `readAt`.  This
evaluates the source's read-then-check-then-write sequence at the
interleaving `[0, 1, 0, 1, 0, 1]`. -/
theorem fetch_and_consume_race :
    (runSched [0, 1, 0, 1, 0, 1] [⟨"abcdefgh", "SECRET", none⟩]
        [initFetch "abcdefgh" 1, initFetch "abcdefgh" 2]).2.map
      FetchProc.result =
      [some ("SECRET", none), some ("SECRET", none)] ∧
    (runSched [0, 1, 0, 1, 0, 1] [⟨"abcdefgh", "SECRET", none⟩]
        [initFetch "abcdefgh" 1, initFetch "abcdefgh" 2]).1 =
      [⟨"abcdefgh", "DEADBEEF", some 2⟩] := by decide

/-! ## C6: stub-allocation exhaustion surfaces as a validation error -/

lemma createMessage_eq (store : Store) (content : String) (rnd : Nat → Nat) :
    createMessage store content rnd =
      match validateMessage store content
          ((generateUniqueStub store rnd 5 3 8).getD "") with
      | some errs => (.error errs, store)
      | none =>
          (.ok ⟨(generateUniqueStub store rnd 5 3 8).getD "", content, none⟩,
            store ++ [⟨(generateUniqueStub store rnd 5 3 8).getD "",
              content, none⟩]) := rfl

lemma validateMessage_eq (store : Store) (content stub : String) :
    validateMessage store content stub =
      if contentErrors content = [] ∧ stubErrors store stub = [] then none
      else some ⟨contentErrors content, stubErrors store stub⟩ := rfl

lemma stubErrors_empty_stub (store : Store) :
    "Stub is required" ∈ stubErrors store "" ∧
    "Stub must be between 8 and 32 characters" ∈ stubErrors store "" := by
  constructor <;> simp [stubErrors]

/-- C6 counterexample: when every candidate of every retry is taken,
`generateUniqueStub` returns `null`, and `createMessage` fails with a
`ModelValidationError` on the `stub` field (`"Stub is required"`,
`"Stub must be between 8 and 32 characters"`) — a validation failure,
not a distinct allocation-exhaustion failure: the embedded `createMessage`
has no `AllocationExhausted` outcome at all. -/
theorem createMessage_exhausted_is_validation_error :
    generateUniqueStub [⟨"AAAAAAAA", "x", none⟩] (fun _ => 0) 5 3 8 =
      none ∧
    (createMessage [⟨"AAAAAAAA", "x", none⟩] "hello" (fun _ => 0)).1 =
      .error ⟨[], ["Stub is required",
        "Stub must be between 8 and 32 characters"]⟩ :=
  ⟨by decide, rfl⟩

/-- C6 (amended): exhausting all allocation retries makes
`generateUniqueStub` return `null`; `createMessage` then substitutes the
empty stub and throws a `ModelValidationError` whose `stub` field lists
the violated stub rules — surfaced to the client as a 422 validation
failure, with nothing persisted. -/
theorem createMessage_exhausted (store : Store) (content : String)
    (rnd : Nat → Nat) (h : generateUniqueStub store rnd 5 3 8 = none) :
    ∃ e : ValidationErrors,
      (createMessage store content rnd).1 = .error e ∧
      "Stub is required" ∈ e.stub ∧
      "Stub must be between 8 and 32 characters" ∈ e.stub ∧
      (createMessage store content rnd).2 = store := by
  have hmem := stubErrors_empty_stub store
  have hne : ¬ (contentErrors content = [] ∧ stubErrors store "" = []) := by
    rintro ⟨-, h2⟩
    rw [h2] at hmem
    exact absurd hmem.1 (List.not_mem_nil _)
  have hv : validateMessage store content "" =
      some ⟨contentErrors content, stubErrors store ""⟩ := by
    rw [validateMessage_eq]
    exact if_neg hne
  rw [createMessage_eq, h]
  simp only [Option.getD_none, hv]
  exact ⟨⟨contentErrors content, stubErrors store ""⟩, rfl, hmem.1, hmem.2,
    trivial⟩

/-- Witness for the amended C6 on a concrete exhausted allocator. -/
theorem createMessage_exhausted_witness :
    ∃ e : ValidationErrors,
      (createMessage [⟨"AAAAAAAA", "x", none⟩] "hello"
        (fun _ => 0)).1 = .error e ∧
      "Stub is required" ∈ e.stub ∧
      "Stub must be between 8 and 32 characters" ∈ e.stub ∧
      (createMessage [⟨"AAAAAAAA", "x", none⟩] "hello" (fun _ => 0)).2 =
        [⟨"AAAAAAAA", "x", none⟩] :=
  createMessage_exhausted [⟨"AAAAAAAA", "x", none⟩] "hello" (fun _ => 0)
    (by decide)

/-! ## C7: validation boundaries -/

/-- C7: `validateMessage` rejects empty content, accepts content of
exactly 10,000 characters, rejects 10,001; rejects stubs of length 7
and 33, and rejects a non-alphanumeric stub — each checked on a concrete
input at the boundary. -/
theorem validateMessage_boundaries :
    (validateMessage [] "" "abcdefgh").isSome ∧
    validateMessage [] (String.mk (List.replicate 10000 'a'))
      "abcdefgh" = none ∧
    (validateMessage [] (String.mk (List.replicate 10001 'a'))
      "abcdefgh").isSome ∧
    (validateMessage [] "x" "abcdefg").isSome ∧
    (validateMessage [] "x" (String.mk (List.replicate 33 'a'))).isSome ∧
    (validateMessage [] "x" "abcd!fgh").isSome := by
  have hstub : stubErrors [] "abcdefgh" = [] := by decide
  have hlen10000 : (String.mk (List.replicate 10000 'a')).length = 10000 := by
    show (List.replicate 10000 'a').length = 10000
    rw [List.length_replicate]
  have hlen10001 : (String.mk (List.replicate 10001 'a')).length = 10001 := by
    show (List.replicate 10001 'a').length = 10001
    rw [List.length_replicate]
  have hne10000 : String.mk (List.replicate 10000 'a') ≠ "" := by
    intro h
    have hr : List.replicate 10000 'a' ≠ [] := by
      apply List.ne_nil_of_length_pos
      rw [List.length_replicate]
      norm_num
    exact hr (congrArg String.data h)
  have hne10001 : String.mk (List.replicate 10001 'a') ≠ "" := by
    intro h
    have hr : List.replicate 10001 'a' ≠ [] := by
      apply List.ne_nil_of_length_pos
      rw [List.length_replicate]
      norm_num
    exact hr (congrArg String.data h)
  have hc10000 : contentErrors (String.mk (List.replicate 10000 'a')) = [] := by
    unfold contentErrors
    rw [if_neg hne10000, if_neg (by rw [hlen10000]; omega)]
    rfl
  have hc10001 : contentErrors (String.mk (List.replicate 10001 'a')) =
      ["Content is too long"] := by
    unfold contentErrors
    rw [if_neg hne10001, if_pos (by rw [hlen10001]; omega)]
    rfl
  refine ⟨by decide, ?_, ?_, by decide, by decide, by decide⟩
  · rw [validateMessage_eq, if_pos ⟨hc10000, hstub⟩]
  · rw [validateMessage_eq, if_neg ?hcond]
    case hcond =>
      rintro ⟨h1, -⟩
      rw [hc10001] at h1
      exact absurd h1 (by simp)
    simp

/-! ## C8: the thrown error carries every violated rule -/

lemma mem_contentErrors_required (content : String) (h : content = "") :
    "Content is required" ∈ contentErrors content := by
  unfold contentErrors
  exact List.mem_append.mpr (Or.inl (by rw [if_pos h]; simp))

lemma mem_contentErrors_long (content : String)
    (h : 10000 < content.length) :
    "Content is too long" ∈ contentErrors content := by
  unfold contentErrors
  exact List.mem_append.mpr (Or.inr (by rw [if_pos h]; simp))

lemma mem_stubErrors_required (store : Store) (stub : String)
    (h : stub = "") : "Stub is required" ∈ stubErrors store stub := by
  unfold stubErrors
  exact List.mem_append.mpr (Or.inl (List.mem_append.mpr (Or.inl
    (List.mem_append.mpr (Or.inl (by rw [if_pos h]; simp))))))

lemma mem_stubErrors_length (store : Store) (stub : String)
    (h : stub.length < 8 ∨ 32 < stub.length) :
    "Stub must be between 8 and 32 characters" ∈ stubErrors store stub := by
  unfold stubErrors
  exact List.mem_append.mpr (Or.inl (List.mem_append.mpr (Or.inl
    (List.mem_append.mpr (Or.inr (by rw [if_pos h]; simp))))))

lemma mem_stubErrors_unique (store : Store) (stub : String)
    (h : (findUniqueStub store stub).isSome) :
    "Stub must be unique" ∈ stubErrors store stub := by
  unfold stubErrors
  exact List.mem_append.mpr (Or.inl (List.mem_append.mpr (Or.inr
    (by rw [if_pos h]; simp))))

lemma mem_stubErrors_alnum (store : Store) (stub : String)
    (h : stub.data.any (fun c => ¬ c.isAlphanum)) :
    "Stub must be alphanumeric" ∈ stubErrors store stub := by
  unfold stubErrors
  exact List.mem_append.mpr (Or.inr (by rw [if_pos h]; simp))

/-- C8: when `createMessage` throws, the single `ModelValidationError`
carries the *complete* rule lists for both fields — each violated
content rule and each violated stub rule is present in the one thrown
error — and nothing has been persisted: the store after the call is the
store before it. -/
theorem createMessage_reports_all (store : Store) (content : String)
    (rnd : Nat → Nat) (e : ValidationErrors)
    (h : (createMessage store content rnd).1 = .error e) :
    (createMessage store content rnd).2 = store ∧
    e.content = contentErrors content ∧
    e.stub = stubErrors store ((generateUniqueStub store rnd 5 3 8).getD "") ∧
    (content = "" → "Content is required" ∈ e.content) ∧
    (10000 < content.length → "Content is too long" ∈ e.content) ∧
    ((generateUniqueStub store rnd 5 3 8).getD "" = "" →
      "Stub is required" ∈ e.stub) ∧
    (((generateUniqueStub store rnd 5 3 8).getD "").length < 8 ∨
        32 < ((generateUniqueStub store rnd 5 3 8).getD "").length →
      "Stub must be between 8 and 32 characters" ∈ e.stub) ∧
    ((findUniqueStub store ((generateUniqueStub store rnd 5 3 8).getD
        "")).isSome → "Stub must be unique" ∈ e.stub) ∧
    (((generateUniqueStub store rnd 5 3 8).getD "").data.any
        (fun c => ¬ c.isAlphanum) →
      "Stub must be alphanumeric" ∈ e.stub) := by
  rw [createMessage_eq] at h ⊢
  cases hv : validateMessage store content
      ((generateUniqueStub store rnd 5 3 8).getD "") with
  | none =>
      rw [hv] at h
      exact absurd h (by simp)
  | some errs =>
      rw [hv] at h
      have he : errs = e := by
        simpa using h
      have herrs : errs = ⟨contentErrors content,
          stubErrors store ((generateUniqueStub store rnd 5 3 8).getD "")⟩ := by
        rw [validateMessage_eq] at hv
        by_cases hcond : contentErrors content = [] ∧
            stubErrors store ((generateUniqueStub store rnd 5 3 8).getD "") = []
        · rw [if_pos hcond] at hv
          exact absurd hv (by simp)
        · rw [if_neg hcond] at hv
          simpa using hv.symm
      subst he
      rw [herrs]
      refine ⟨rfl, rfl, rfl, ?_, ?_, ?_, ?_, ?_, ?_⟩
      · exact fun hh => mem_contentErrors_required content hh
      · exact fun hh => mem_contentErrors_long content hh
      · exact fun hh => mem_stubErrors_required store _ hh
      · exact fun hh => mem_stubErrors_length store _ hh
      · exact fun hh => mem_stubErrors_unique store _ hh
      · exact fun hh => mem_stubErrors_alnum store _ hh

/-- Witness for C8: an input violating rules on both fields at once
(empty content, exhausted allocator) gets one error carrying both
fields' messages, and nothing is persisted. -/
theorem createMessage_reports_all_witness :
    (createMessage [⟨"AAAAAAAA", "x", none⟩] "" (fun _ => 0)).2 =
      [⟨"AAAAAAAA", "x", none⟩] ∧
    "Content is required" ∈
      (⟨["Content is required"], ["Stub is required",
        "Stub must be between 8 and 32 characters"]⟩
        : ValidationErrors).content ∧
    "Stub is required" ∈
      (⟨["Content is required"], ["Stub is required",
        "Stub must be between 8 and 32 characters"]⟩
        : ValidationErrors).stub := by
  have hr := createMessage_reports_all [⟨"AAAAAAAA", "x", none⟩] ""
    (fun _ => 0)
    ⟨["Content is required"], ["Stub is required",
      "Stub must be between 8 and 32 characters"]⟩ rfl
  exact ⟨hr.1, hr.2.2.2.1 rfl, hr.2.2.2.2.2.1 (by decide)⟩

/-! ## C10: the POST handler stores the raw request body verbatim -/

/-- C10: when the POST creation handler answers with a stub, the record
appended to the store carries the entire raw request body as its
content — `createMessage(await request.text())` persists the body text
verbatim, with no `content` field extracted from it. -/
theorem post_stores_raw_body (body : String) (store : Store)
    (rnd : Nat → Nat) (stub : String)
    (h : (POST body store rnd).1 = PostResponse.ok stub) :
    (POST body store rnd).2 = store ++ [⟨stub, body, none⟩] := by
  unfold POST at h ⊢
  rw [createMessage_eq] at h ⊢
  cases hv : validateMessage store body
      ((generateUniqueStub store rnd 5 3 8).getD "") with
  | some errs =>
      rw [hv] at h
      exact absurd h (by simp)
  | none =>
      rw [hv] at h
      have : (generateUniqueStub store rnd 5 3 8).getD "" = stub := by
        simpa using h
      rw [this]

/-- Witness for C10: a body that is itself a JSON object string is
persisted verbatim, wrapper and all. -/
theorem post_stores_raw_body_witness :
    (POST "\x7b\"content\":\"abc\"\x7d" [] (fun _ => 1)).2 =
      [⟨"BBBBBBBB", "\x7b\"content\":\"abc\"\x7d", none⟩] :=
  post_stores_raw_body "\x7b\"content\":\"abc\"\x7d" [] (fun _ => 1)
    "BBBBBBBB" (by decide)

end Celox
